import Mathlib

/-!
Verification of the candle-vllm memory-management core.

This file shallowly embeds the two source files of the repository:
`src/openai/pipelines/llm_engine.rs` (batch preparation and the step loop)
and `src/backend/cache.rs` (block-granular cache transfers), and proves or
refutes the frozen claims about them.

Conventions of the embedding:
- Rust `usize` values are Lean `Nat`; a `usize` subtraction that can
  underflow is modelled as a checked subtraction returning `Option Nat`
  (underflow is an arithmetic-overflow program error in Rust: a panic).
- Fallible code paths (`unwrap` on a missing table entry, underflow) are
  modelled with `Option`: `none` means the Rust code panics.
- Raw device or host memory is modelled as a total byte map `Nat → Nat`
  (address to byte value); the device copy primitives of the backend are
  the address-range copy `memcpy` below, matching the interface the code
  drives: (sourceAddress, destinationAddress, lengthInBytes).
-/

namespace CandleVllm

/-- The PAD sentinel `_PAD_SLOT_ID` from `llm_engine.rs`. -/
def PAD_SLOT_ID : Int := -1

/-- Checked `usize` subtraction: `none` models the Rust overflow panic. -/
def checkedSub (a b : Nat) : Option Nat :=
  if b ≤ a then some (a - b) else none

/-- The sliding-window start index of `prepare_prompt`
(`llm_engine.rs` line 137): `0.min(prompt_len - sliding_window)` when a
window is configured, `0` otherwise. The subtraction is the checked model
of the `usize` subtraction. -/
def startIdx (window : Option Nat) (promptLen : Nat) : Option Nat :=
  match window with
  | none => some 0
  | some w => (checkedSub promptLen w).map (fun d => min 0 d)

/-- The slot-mapping loop of `prepare_prompt` (`llm_engine.rs` lines
143-154): for each position `i` below the prompt length, if `i` is below
the start index push the PAD sentinel, and in every case resolve
`table[i / block_size] * block_size + i % block_size` (the loop body has
no else branch), failing when the table lookup fails. `n` is the number
of loop iterations already performed, i.e. positions `0..n` are built. -/
def buildSlotMapping (bs : Nat) (t : List Nat) (s : Nat) : Nat → Option (List Int)
  | 0 => some []
  | n + 1 =>
      (buildSlotMapping bs t s n).bind (fun rest =>
        (t[n / bs]?).map (fun b =>
          rest ++ (if n < s then [PAD_SLOT_ID] else []) ++
            [((b * bs + n % bs : Nat) : Int)]))

/-- The per-sequence slot-mapping row of `prepare_prompt` (`llm_engine.rs`
lines 125-155): a missing block table yields an all-PAD row of the prompt
length; otherwise the start index is computed and the loop runs over all
prompt positions. -/
def promptSlotRow (bs : Nat) (window : Option Nat) (tableOpt : Option (List Nat))
    (n : Nat) : Option (List Int) :=
  match tableOpt with
  | none => some (List.replicate n PAD_SLOT_ID)
  | some t => (startIdx window n).bind (fun s => buildSlotMapping bs t s n)

/-- The per-sequence part of `prepare_prompt` over a batch: each sequence
contributes its token list, positions `0..len`, and its slot-mapping row
(padding to the batch maximum happens afterwards and is not needed by the
claims, which speak about the rows before padding). -/
def prepare_prompt (bs : Nat) (window : Option Nat)
    (seqs : List (List Nat × Option (List Nat))) :
    Option (List (List Nat × List Nat × List Int)) :=
  seqs.mapM (fun sq =>
    (promptSlotRow bs window sq.2 sq.1.length).map (fun m =>
      (sq.1, List.range sq.1.length, m)))

/-- The context length computed by `prepare_decode` (`llm_engine.rs` lines
210-214): the sequence length, capped at the sliding window when one is
configured. -/
def contextLenOf (window : Option Nat) (len : Nat) : Nat :=
  match window with
  | some w => min len w
  | none => len

/-- The block-table truncation of `prepare_decode` (`llm_engine.rs` lines
231-241): with a sliding window the table is sliced from
`table.len() - sliding_window / block_size`, where the `usize` subtraction
panics when the table is shorter than `sliding_window / block_size`
(modelled as `none`); with no window the full table is kept. -/
def decodeBlockTable (bs : Nat) (window : Option Nat) (t : List Nat) :
    Option (List Nat) :=
  match window with
  | none => some t
  | some w =>
      if w / bs ≤ t.length then some (t.drop (t.length - w / bs)) else none

/-- The per-sequence output of `prepare_decode`: the single emitted token,
its position, the reported context length, the single resolved slot, and
the (possibly truncated) block table handed to the model. -/
structure DecodeOut where
  token : Nat
  position : Nat
  contextLen : Nat
  slot : Int
  table : List Nat
deriving DecidableEq, Repr

/-- The per-sequence body of `prepare_decode` (`llm_engine.rs` lines
202-242): take the last token id and position `len - 1`, compute the
context length, unwrap the block table (a missing table is a panic,
modelled as `none`), resolve the single slot
`table[position / block_size] * block_size + position % block_size`, and
truncate the block table. -/
def prepareDecodeRow (bs : Nat) (window : Option Nat) (tokens : List Nat)
    (tableOpt : Option (List Nat)) : Option DecodeOut :=
  tokens.getLast?.bind (fun lastTok =>
    let position := tokens.length - 1
    let contextLen := contextLenOf window tokens.length
    tableOpt.bind (fun t =>
      (t[position / bs]?).bind (fun b =>
        (decodeBlockTable bs window t).map (fun dt =>
          ⟨lastTok, position, contextLen, ((b * bs + position % bs : Nat) : Int), dt⟩))))

/-- The per-sequence part of `prepare_decode` over a batch (padding of the
block tables to the batch maximum happens afterwards). -/
def prepare_decode (bs : Nat) (window : Option Nat)
    (seqs : List (List Nat × Option (List Nat))) : Option (List DecodeOut) :=
  seqs.mapM (fun sq => prepareDecodeRow bs window sq.1 sq.2)

/-- A storage location of a tensor: a CUDA device with an ordinal, or host
memory. -/
inductive Loc where
  | cuda (ordinal : Nat)
  | cpu
deriving DecidableEq, Repr

/-- A tensor participating in `swap_blocks`: its storage location, the
start offset of its layout within the backing allocation, and the bytes of
the backing allocation as a total map from address to byte. -/
structure SwapTensor where
  loc : Loc
  startOffset : Nat
  mem : Nat → Nat

/-- The byte-range copy primitive of the device layer (dtod, htod and dtoh
copies all present this shape to the caller): copy `len` bytes read from
`src` at `srcOff` into `dst` at `dstOff`. -/
def memcpy (dst src : Nat → Nat) (dstOff srcOff len : Nat) : Nat → Nat :=
  fun a => if dstOff ≤ a ∧ a < dstOff + len then src (srcOff + (a - dstOff)) else dst a

/-- The device-mismatch error of `swap_blocks` (`cache.rs` line 49). -/
def ordinalMismatchMsg (s d : Nat) : String :=
  "Tensors must be on the same device to copy, got ordinals " ++ toString s ++
    " (src) and " ++ toString d ++ " (dst)."

/-- The unsupported-pairing error of `swap_blocks` (`cache.rs` line 113). -/
def unsupportedSwapMsg : String :=
  "Tensors must be on either the GPU or CPU to swap,, got unsupported pairing."

/-- `swap_blocks` from `cache.rs`, over the byte-map model. `S` is
`block_size_in_bytes` (dtype size times the leading dimension). The result
is the error, if any, paired with the final bytes of the destination
allocation. The three copy paths follow the source exactly:
- cuda to cuda on one ordinal: source read at
  `src.startOffset + srcBlock * S`, destination written at
  `dst.startOffset + dstBlock * S`;
- cpu to cuda: the source is read through `as_slice` at `srcBlock * S`
  (the source layout variable `_src_layout` is unused in the code, so no
  start offset is added), destination written at
  `dst.startOffset + dstBlock * S`;
- cuda to cpu: the destination slice is the whole backing allocation and
  the computed `dst_offset` is never used, so every copy writes at
  address 0;
- mismatched ordinals and cpu to cpu return errors before any copy. -/
def swap_blocks (S : Nat) (src dst : SwapTensor) (mapping : List (Nat × Nat)) :
    Option String × (Nat → Nat) :=
  match src.loc, dst.loc with
  | Loc.cuda so, Loc.cuda dn =>
      if so ≠ dn then
        (some (ordinalMismatchMsg so dn), dst.mem)
      else
        (none, mapping.foldl (fun d p =>
          memcpy d src.mem (dst.startOffset + p.2 * S) (src.startOffset + p.1 * S) S) dst.mem)
  | Loc.cpu, Loc.cuda _ =>
      (none, mapping.foldl (fun d p =>
        memcpy d src.mem (dst.startOffset + p.2 * S) (p.1 * S) S) dst.mem)
  | Loc.cuda _, Loc.cpu =>
      (none, mapping.foldl (fun d p =>
        memcpy d src.mem 0 (src.startOffset + p.1 * S) S) dst.mem)
  | Loc.cpu, Loc.cpu =>
      (some unsupportedSwapMsg, dst.mem)

/-- The (source, destination) pairs implied by a replication mapping from
source block ids to lists of destination block ids. -/
def mappingPairs (m : List (Nat × List Nat)) : List (Nat × Nat) :=
  m.flatMap (fun sd => sd.2.map (fun d => (sd.1, d)))

/-- Sequential in-place block copies over one cache buffer: for each pair,
copy block `p.1` onto block `p.2` (blocks are `S` bytes). -/
def copyPairs (S : Nat) : List (Nat × Nat) → (Nat → Nat) → (Nat → Nat)
  | [], buf => buf
  | p :: rest, buf => copyPairs S rest (memcpy buf buf (p.2 * S) (p.1 * S) S)

/-- Modelled from the spec: the block replication of `copy_blocks`. The
Rust body in `cache.rs` compiles `copy_blocks_kernel.cu` and then stops at
an unimplemented stub, and the kernel file itself is not among the
sources; per the spec, for every layer key and value cache buffer and for
every (source, destination) pair implied by the mapping, the source block
is copied into the destination block. -/
def copy_blocks (S : Nat) (keyCaches valueCaches : List (Nat → Nat))
    (m : List (Nat × List Nat)) : List (Nat → Nat) × List (Nat → Nat) :=
  (keyCaches.map (fun b => copyPairs S (mappingPairs m) b),
   valueCaches.map (fun b => copyPairs S (mappingPairs m) b))

/-- One answer of the external scheduler: the groups scheduled this round
and the groups it could not schedule (ignored). -/
structure SchedulerRound where
  scheduled : List Nat
  ignored : List Nat

/-- Modelled from the spec: the external scheduler consumed by `generate`
(`Scheduler::schedule` and `has_unfinished_sequences` are not among the
sources, and the ignored-group handling in `generate` is an unimplemented
stub). `plan` partitions the waiting groups of a round; `finishes` tells
whether a scheduled group completes during the round. -/
structure SchedulerModel where
  plan : List Nat → SchedulerRound
  finishes : Nat → Bool

/-- Modelled from the spec: one round of the `generate` step loop. The
scheduled groups that do not finish stay queued, and the ignored groups
are resubmitted, never discarded. -/
def engineRound (M : SchedulerModel) (q : List Nat) : List Nat :=
  (M.plan q).scheduled.filter (fun g => !(M.finishes g)) ++ (M.plan q).ignored

/-- Modelled from the spec: the `generate` step loop, running rounds while
unfinished sequences remain (a nonempty queue), with explicit fuel. -/
def generateLoop (M : SchedulerModel) : Nat → List Nat → List Nat
  | 0, q => q
  | n + 1, q => if q.isEmpty then q else generateLoop M n (engineRound M q)

/-- A concrete scheduler model for witnesses: every group is ignored every
round and nothing finishes. -/
def starveModel : SchedulerModel :=
  ⟨fun q => ⟨[], q⟩, fun _ => false⟩

/-- A concrete device tensor for the swap theorems: bytes `a + 10`. -/
def srcDevTensor : SwapTensor :=
  ⟨Loc.cuda 0, 0, fun a => a + 10⟩

/-- A concrete host tensor for the swap theorems: all zero bytes. -/
def dstHostTensor : SwapTensor :=
  ⟨Loc.cpu, 0, fun _ => 0⟩

/-- A concrete device tensor on ordinal 1 for the swap error theorems. -/
def otherDevTensor : SwapTensor :=
  ⟨Loc.cuda 1, 0, fun _ => 0⟩

/-- A second concrete host tensor for the swap error theorems. -/
def srcHostTensor : SwapTensor :=
  ⟨Loc.cpu, 0, fun a => a + 3⟩

/-- The token list of the decode scenario of the spec: length 10, last
token id 42. -/
def decodeScenarioTokens : List Nat := [1, 2, 3, 4, 5, 6, 7, 8, 9, 42]

/-- The expected decode output of the spec scenario: last token 42 at
position 9, context length 10, slot 25, full table kept. -/
def decodeScenarioOut : DecodeOut := ⟨42, 9, 10, 25, [4, 5, 6]⟩

lemma startIdx_eq_zero {window : Option Nat} {n s : Nat}
    (h : startIdx window n = some s) : s = 0 := by
  cases window with
  | none => simpa [startIdx] using h.symm
  | some w =>
      unfold startIdx checkedSub at h
      by_cases hw : w ≤ n
      · simp [hw] at h
        omega
      · simp [hw] at h

lemma buildSlotMapping_spec (bs : Nat) (t : List Nat) :
    ∀ n m, buildSlotMapping bs t 0 n = some m →
      m.length = n ∧ ∀ i, i < n → ∃ b, t[i / bs]? = some b ∧
        m[i]? = some ((b * bs + i % bs : Nat) : Int) := by
  intro n
  induction n with
  | zero =>
      intro m hm
      simp [buildSlotMapping] at hm
      subst hm
      simp
  | succ k ih =>
      intro m hm
      unfold buildSlotMapping at hm
      cases hrest : buildSlotMapping bs t 0 k with
      | none => rw [hrest] at hm; simp at hm
      | some rest =>
          rw [hrest] at hm
          cases hb : t[k / bs]? with
          | none => simp [hb] at hm
          | some b =>
              simp [hb] at hm
              obtain ⟨hlen, hall⟩ := ih rest hrest
              subst hm
              constructor
              · simp [hlen]
              · intro i hi
                rcases Nat.lt_or_ge i k with hik | hik
                · obtain ⟨b0, hb0, hm0⟩ := hall i hik
                  refine ⟨b0, hb0, ?_⟩
                  have hlt : i < rest.length := by omega
                  simp [List.getElem?_append, hlt, hm0]
                · have hik' : i = k := by omega
                  subst hik'
                  refine ⟨b, hb, ?_⟩
                  have hge : ¬ (i < rest.length) := by omega
                  simp [List.getElem?_append, hge, hlen]

/-- C1: for every prefill sequence with an allocated block table, the slot
mapping built by `prepare_prompt` before padding has length equal to the
prompt length, and the slot at each position `i` equals
`blockTable[i / blockSize] * blockSize + i % blockSize`, which lies in
the half-open range of the block listed at that table index. -/
theorem C1_prefill_slot_mapping (bs : Nat) (window : Option Nat) (t : List Nat)
    (n : Nat) (m : List Int) (hbs : 0 < bs)
    (h : promptSlotRow bs window (some t) n = some m) :
    m.length = n ∧ ∀ i, i < n → ∃ b, t[i / bs]? = some b ∧
      m[i]? = some ((b * bs + i % bs : Nat) : Int) ∧
      b * bs ≤ b * bs + i % bs ∧ b * bs + i % bs < b * bs + bs := by
  unfold promptSlotRow at h
  cases hs : startIdx window n with
  | none => rw [hs] at h; simp at h
  | some s =>
      rw [hs] at h
      simp at h
      have hz := startIdx_eq_zero hs
      subst hz
      obtain ⟨hlen, hall⟩ := buildSlotMapping_spec bs t n m h
      refine ⟨hlen, fun i hi => ?_⟩
      obtain ⟨b, hb, hm⟩ := hall i hi
      exact ⟨b, hb, hm, Nat.le_add_right _ _,
        Nat.add_lt_add_left (Nat.mod_lt i hbs) _⟩

/-- Witness for C1 at the spec scenario: prompt `[10,20,30]` (length 3),
block size 2, block table `[4,5]` gives slot mapping `[8,9,10]`. -/
theorem C1_witness :
    promptSlotRow 2 none (some [4, 5]) 3 = some [8, 9, 10] ∧ 0 < 2 ∧
    (([8, 9, 10] : List Int).length = 3 ∧
      ∀ i, i < 3 → ∃ b, ([4, 5] : List Nat)[i / 2]? = some b ∧
        ([8, 9, 10] : List Int)[i]? = some ((b * 2 + i % 2 : Nat) : Int) ∧
        b * 2 ≤ b * 2 + i % 2 ∧ b * 2 + i % 2 < b * 2 + 2) :=
  ⟨by decide, by decide,
    C1_prefill_slot_mapping 2 none [4, 5] 3 [8, 9, 10] (by decide) (by decide)⟩

/-- C2 evaluated at a failing input: with sliding window 2 and prompt
length 5 the code computes start index `0.min(5 - 2) = 0`, not
`max(0, 5 - 2) = 3`, so no leading position of the row is PAD: the row
resolves every position through the block table as `[0,1,2,3,4]`. -/
theorem C2_zero_skip_bug :
    startIdx (some 2) 5 = some 0 ∧
    promptSlotRow 2 (some 2) (some [0, 1, 2]) 5 = some [0, 1, 2, 3, 4] ∧
    (0 : Nat) ≠ 5 - 2 := by
  refine ⟨by decide, by decide, by decide⟩

/-- C5: a missing block table during prefill is not an error: the row is
the all-PAD sentinel row of the prompt length and preparation continues;
a missing block table during decode makes the row preparation fail. -/
theorem C5_missing_table (bs : Nat) (window : Option Nat) (n : Nat)
    (tokens : List Nat) :
    promptSlotRow bs window none n = some (List.replicate n PAD_SLOT_ID) ∧
    prepareDecodeRow bs window tokens none = none := by
  constructor
  · rfl
  · unfold prepareDecodeRow
    cases tokens.getLast? <;> simp

/-- C10: with a sliding window configured, `prepare_prompt` evaluates
`prompt_len - sliding_window` for every sequence that has an allocated
block table, so for any allocated prompt strictly shorter than the window
the subtraction underflows and the row build fails. -/
theorem C10_window_underflow (bs w n : Nat) (t : List Nat) (h : n < w) :
    startIdx (some w) n = none ∧
    promptSlotRow bs (some w) (some t) n = none := by
  have hs : startIdx (some w) n = none := by
    unfold startIdx checkedSub
    have hle : ¬ w ≤ n := by omega
    simp [hle]
  exact ⟨hs, by unfold promptSlotRow; rw [hs]; rfl⟩

/-- Witness for C10: window 4, prompt length 2, allocated table `[0]`:
the row build fails. -/
theorem C10_witness :
    2 < 4 ∧ (startIdx (some 4) 2 = none ∧
      promptSlotRow 2 (some 4) (some [0]) 2 = none) :=
  ⟨by decide, C10_window_underflow 2 4 2 [0] (by decide)⟩

/-- C4 counterexample: with window 5 and block size 2 the code keeps the
last `5 / 2 = 2` entries of table `[4,5,6]`, while the claim demands
`min(len, ceil(5 / 2)) = min(3, 3) = 3` entries. -/
theorem C4_counterexample :
    decodeBlockTable 2 (some 5) [4, 5, 6] = some [5, 6] ∧
    ([5, 6] : List Nat).length ≠
      min ([4, 5, 6] : List Nat).length ((5 + 2 - 1) / 2) := by
  refine ⟨by decide, by decide⟩

/-- C4 amended: with sliding window W and block size B configured, decode
preparation truncates the block table to exactly the last `W / B` (floor
division) trailing entries when the table has at least `W / B` entries,
and fails (the `usize` subtraction panics) when the table is shorter;
with no window configured it keeps the full table. -/
theorem C4_decode_table_truncation (bs w : Nat) (t t2 : List Nat)
    (h : w / bs ≤ t.length) (h2 : t2.length < w / bs) :
    decodeBlockTable bs (some w) t = some (t.drop (t.length - w / bs)) ∧
    (t.drop (t.length - w / bs)).length = w / bs ∧
    decodeBlockTable bs (some w) t2 = none ∧
    decodeBlockTable bs none t = some t := by
  refine ⟨?_, ?_, ?_, rfl⟩
  · unfold decodeBlockTable
    simp [h]
  · simp
    omega
  · unfold decodeBlockTable
    have hle : ¬ w / bs ≤ t2.length := by omega
    simp [hle]

/-- Witness for C4: window 5, block size 2, tables `[4,5,6]` and `[4]`. -/
theorem C4_witness :
    decodeBlockTable 2 (some 5) [4, 5, 6] =
      some (([4, 5, 6] : List Nat).drop (([4, 5, 6] : List Nat).length - 5 / 2)) ∧
    ((([4, 5, 6] : List Nat).drop (([4, 5, 6] : List Nat).length - 5 / 2)).length
      = 5 / 2) ∧
    decodeBlockTable 2 (some 5) [4] = none ∧
    decodeBlockTable 2 none [4, 5, 6] = some [4, 5, 6] :=
  C4_decode_table_truncation 2 5 [4, 5, 6] [4] (by decide) (by decide)

/-- C7: decode preparation emits, per sequence, exactly the last token id
at position `length - 1`, reports context length equal to the sequence
length capped at the sliding window when one is configured, and resolves
the single slot as
`blockTable[position / blockSize] * blockSize + position % blockSize`. -/
theorem C7_decode_row (bs : Nat) (window : Option Nat) (tokens t : List Nat)
    (r : DecodeOut) (h : prepareDecodeRow bs window tokens (some t) = some r) :
    tokens.getLast? = some r.token ∧
    r.position = tokens.length - 1 ∧
    r.contextLen = contextLenOf window tokens.length ∧
    (t[(tokens.length - 1) / bs]?).map
        (fun b => ((b * bs + (tokens.length - 1) % bs : Nat) : Int))
      = some r.slot := by
  unfold prepareDecodeRow at h
  cases hl : tokens.getLast? with
  | none => rw [hl] at h; simp at h
  | some lastTok =>
      rw [hl] at h
      simp at h
      cases hb : t[(tokens.length - 1) / bs]? with
      | none => rw [hb] at h; simp at h
      | some b =>
          rw [hb] at h
          simp at h
          cases hd : decodeBlockTable bs window t with
          | none => rw [hd] at h; simp at h
          | some dt =>
              rw [hd] at h
              simp at h
              subst h
              exact ⟨rfl, rfl, rfl, by simp⟩

/-- Witness for C7 at the spec scenario: sequence length 10, block size 4,
no window, table `[4,5,6]`: slot 25 and context length 10. -/
theorem C7_witness :
    prepareDecodeRow 4 none decodeScenarioTokens (some [4, 5, 6])
      = some decodeScenarioOut ∧
    (decodeScenarioTokens.getLast? = some decodeScenarioOut.token ∧
     decodeScenarioOut.position = decodeScenarioTokens.length - 1 ∧
     decodeScenarioOut.contextLen = contextLenOf none decodeScenarioTokens.length ∧
     (([4, 5, 6] : List Nat)[(decodeScenarioTokens.length - 1) / 4]?).map
        (fun b => ((b * 4 + (decodeScenarioTokens.length - 1) % 4 : Nat) : Int))
       = some decodeScenarioOut.slot) :=
  ⟨by decide,
    C7_decode_row 4 none decodeScenarioTokens [4, 5, 6] decodeScenarioOut (by decide)⟩

/-- C6: `swap_blocks` between two device buffers on different ordinals
returns the device-mismatch error naming both ordinals and performs no
copy; `swap_blocks` between two host buffers returns the
unsupported-pairing error and performs no copy. -/
theorem C6_swap_rejections (S : Nat) (src dst src2 dst2 : SwapTensor)
    (mapping mapping2 : List (Nat × Nat)) (o1 o2 : Nat)
    (h1 : src.loc = Loc.cuda o1) (h2 : dst.loc = Loc.cuda o2) (hne : o1 ≠ o2)
    (h3 : src2.loc = Loc.cpu) (h4 : dst2.loc = Loc.cpu) :
    swap_blocks S src dst mapping = (some (ordinalMismatchMsg o1 o2), dst.mem) ∧
    swap_blocks S src2 dst2 mapping2 = (some unsupportedSwapMsg, dst2.mem) := by
  constructor
  · unfold swap_blocks
    rw [h1, h2]
    simp [hne]
  · unfold swap_blocks
    rw [h3, h4]

/-- Witness for C6: ordinals 0 and 1 mismatch; two host tensors are an
unsupported pairing; the destination bytes are returned untouched. -/
theorem C6_witness :
    swap_blocks 1 srcDevTensor otherDevTensor [] =
      (some (ordinalMismatchMsg 0 1), otherDevTensor.mem) ∧
    swap_blocks 1 srcHostTensor dstHostTensor [] =
      (some unsupportedSwapMsg, dstHostTensor.mem) :=
  C6_swap_rejections 1 srcDevTensor otherDevTensor srcHostTensor dstHostTensor
    [] [] 0 1 rfl rfl (by decide) rfl rfl

/-- C3 evaluated at a failing input: a device-to-host swap with mapping
`(0, 1)` and blockSizeBytes 2. Source block 0 holds bytes 10 and 11; the
claim requires destination block 1 (addresses 2 and 3) to become 10 and
11 with no byte outside block 1 changing, but the code writes the source
block at address 0 of the host allocation, leaving addresses 2 and 3 at 0
and clobbering addresses 0 and 1, which lie outside the named destination
block. -/
theorem C3_dtoh_ignores_offset :
    (swap_blocks 2 srcDevTensor dstHostTensor [(0, 1)]).1 = none ∧
    (swap_blocks 2 srcDevTensor dstHostTensor [(0, 1)]).2 2 = 0 ∧
    (swap_blocks 2 srcDevTensor dstHostTensor [(0, 1)]).2 3 = 0 ∧
    (swap_blocks 2 srcDevTensor dstHostTensor [(0, 1)]).2 0 = 10 ∧
    (swap_blocks 2 srcDevTensor dstHostTensor [(0, 1)]).2 1 = 11 ∧
    srcDevTensor.mem 0 = 10 ∧ srcDevTensor.mem 1 = 11 ∧
    dstHostTensor.mem 0 = 0 ∧ dstHostTensor.mem 2 = 0 ∧ dstHostTensor.mem 3 = 0 := by
  refine ⟨rfl, by decide, by decide, by decide, by decide, rfl, rfl, rfl, rfl, rfl⟩

lemma blocks_disjoint {d e k S : Nat} (hne : d ≠ e) (hk : k < S) :
    ¬ (e * S ≤ d * S + k ∧ d * S + k < e * S + S) := by
  rintro ⟨h1, h2⟩
  rcases Nat.lt_or_ge d e with hlt | hge
  · have hm : (d + 1) * S ≤ e * S := Nat.mul_le_mul_right S (by omega)
    rw [Nat.add_mul, one_mul] at hm
    omega
  · have he : e < d := by omega
    have hm : (e + 1) * S ≤ d * S := Nat.mul_le_mul_right S (by omega)
    rw [Nat.add_mul, one_mul] at hm
    omega

lemma copyPairs_notin (S : Nat) (pairs : List (Nat × Nat)) :
    ∀ buf a, (∀ p ∈ pairs, ¬ (p.2 * S ≤ a ∧ a < p.2 * S + S)) →
      copyPairs S pairs buf a = buf a := by
  induction pairs with
  | nil => intro buf a _; rfl
  | cons hd tl ih =>
      intro buf a ha
      unfold copyPairs
      rw [ih _ a (fun p hp => ha p (List.mem_cons_of_mem _ hp))]
      unfold memcpy
      rw [if_neg (ha hd (List.mem_cons_self _ _))]

lemma copyPairs_dest (S : Nat) (pairs : List (Nat × Nat)) :
    ∀ buf, ((pairs.map Prod.snd).Nodup) →
      (∀ p ∈ pairs, ∀ q ∈ pairs, p.1 ≠ q.2) →
      ∀ p ∈ pairs, ∀ k, k < S →
        copyPairs S pairs buf (p.2 * S + k) = buf (p.1 * S + k) := by
  induction pairs with
  | nil => intro buf _ _ p hp; cases hp
  | cons hd tl ih =>
      intro buf hnd hsd p hp k hk
      rw [List.map_cons, List.nodup_cons] at hnd
      obtain ⟨hhd, hnd2⟩ := hnd
      unfold copyPairs
      rcases List.mem_cons.mp hp with hpe | hpt
      · subst hpe
        rw [copyPairs_notin S tl _ _ ?disj]
        case disj =>
          intro q hq
          refine blocks_disjoint (fun hEq => hhd ?_) hk
          rw [hEq]
          exact List.mem_map_of_mem Prod.snd hq
        unfold memcpy
        rw [if_pos ⟨Nat.le_add_right _ _, by omega⟩]
        congr 1
        omega
      · have hres := ih (memcpy buf buf (hd.2 * S) (hd.1 * S) S) hnd2
          (fun a ha b hb =>
            hsd a (List.mem_cons_of_mem _ ha) b (List.mem_cons_of_mem _ hb))
          p hpt k hk
        rw [hres]
        unfold memcpy
        rw [if_neg (blocks_disjoint
          (hsd p (List.mem_cons_of_mem _ hpt) hd (List.mem_cons_self _ _)) hk)]

/-- C8: `copy_blocks` (replicate), for every layer key and value cache
buffer and for every (source, destination) pair implied by the mapping,
copies the source block contents into the destination block and leaves
the source block (and every block not named as a destination)
unchanged, provided the destinations are distinct and no source is also a
destination, as in a copy-on-write fan-out. -/
theorem C8_copy_blocks (S : Nat) (ks vs : List (Nat → Nat))
    (m : List (Nat × List Nat)) (buf : Nat → Nat)
    (hnd : ((mappingPairs m).map Prod.snd).Nodup)
    (hsd : ∀ p ∈ mappingPairs m, ∀ q ∈ mappingPairs m, p.1 ≠ q.2) :
    (copy_blocks S ks vs m).1 = ks.map (fun b => copyPairs S (mappingPairs m) b) ∧
    (copy_blocks S ks vs m).2 = vs.map (fun b => copyPairs S (mappingPairs m) b) ∧
    (∀ p ∈ mappingPairs m, ∀ k, k < S →
      copyPairs S (mappingPairs m) buf (p.2 * S + k) = buf (p.1 * S + k)) ∧
    (∀ p ∈ mappingPairs m, ∀ k, k < S →
      copyPairs S (mappingPairs m) buf (p.1 * S + k) = buf (p.1 * S + k)) := by
  refine ⟨rfl, rfl, ?_, ?_⟩
  · exact fun p hp k hk => copyPairs_dest S (mappingPairs m) buf hnd hsd p hp k hk
  · intro p hp k hk
    apply copyPairs_notin
    intro q hq
    exact blocks_disjoint (hsd p hp q hq) hk

/-- Witness for C8 at the spec scenario mapping `5 → [9, 12]` with unit
block size over the identity byte map: blocks 9 and 12 become copies of
block 5 and block 5 is unchanged. -/
theorem C8_witness :
    copyPairs 1 (mappingPairs [(5, [9, 12])]) (fun a => a) (9 * 1 + 0)
      = (fun a : Nat => a) (5 * 1 + 0) ∧
    copyPairs 1 (mappingPairs [(5, [9, 12])]) (fun a => a) (12 * 1 + 0)
      = (fun a : Nat => a) (5 * 1 + 0) ∧
    copyPairs 1 (mappingPairs [(5, [9, 12])]) (fun a => a) (5 * 1 + 0)
      = (fun a : Nat => a) (5 * 1 + 0) :=
  ⟨(C8_copy_blocks 1 [] [] [(5, [9, 12])] (fun a => a) (by decide) (by decide)).2.2.1
      (5, 9) (by decide) 0 (by decide),
   (C8_copy_blocks 1 [] [] [(5, [9, 12])] (fun a => a) (by decide) (by decide)).2.2.1
      (5, 12) (by decide) 0 (by decide),
   (C8_copy_blocks 1 [] [] [(5, [9, 12])] (fun a => a) (by decide) (by decide)).2.2.2
      (5, 9) (by decide) 0 (by decide)⟩

/-- C9: in every round of the step loop, a group the scheduler reports as
ignored is present again in the queue of the following round and is never
dropped, and the loop keeps running rounds exactly while unfinished
sequences remain. -/
theorem C9_ignored_retried (M : SchedulerModel) (g : Nat)
    (h : ∀ q, g ∈ q → g ∈ (M.plan q).ignored) :
    (∀ q, g ∈ q → g ∈ engineRound M q) ∧
    (∀ n q, g ∈ q → g ∈ generateLoop M n q) ∧
    (∀ n, generateLoop M n [] = []) ∧
    (∀ n q, q.isEmpty = false →
      generateLoop M (n + 1) q = generateLoop M n (engineRound M q)) := by
  have hround : ∀ q, g ∈ q → g ∈ engineRound M q := fun q hq =>
    List.mem_append_right _ (h q hq)
  refine ⟨hround, ?_, ?_, ?_⟩
  · intro n
    induction n with
    | zero => intro q hq; simpa [generateLoop] using hq
    | succ k ih =>
        intro q hq
        unfold generateLoop
        have he : q.isEmpty = false := by
          cases q with
          | nil => cases hq
          | cons x xs => rfl
        simp only [he]
        simpa using ih _ (hround q hq)
  · intro n
    cases n <;> simp [generateLoop]
  · intro n q hq
    simp [generateLoop, hq]

/-- Witness for C9: a scheduler that ignores every group never loses
group 7 across three rounds. -/
theorem C9_witness :
    (7 ∈ engineRound starveModel [7]) ∧
    (7 ∈ generateLoop starveModel 3 [7]) :=
  ⟨(C9_ignored_retried starveModel 7 (fun q hq => hq)).1 [7] (by decide),
   (C9_ignored_retried starveModel 7 (fun q hq => hq)).2.1 3 [7] (by decide)⟩

end CandleVllm
